import Mathlib

/-
Verification of the nexus-pls core: the subscriber cache / persistence layer
(src/tracking.rs), the worker message handlers and the polling scheduler
(src/center.rs).  The Rust code is shallowly embedded: the redis store is a
key/value map whose reads can be absent, unparsable or a parsed value; the
in-memory HashMaps are association lists; async effects are explicit state
passing; panics (unwrap, index) are an explicit error outcome.
-/

set_option autoImplicit false

/-- Center ids are u32 in the source (src/center.rs line 24); no arithmetic is
performed on them, so Nat is used. -/
abbrev CenterId := Nat

/-- User ids are u64 in the source (src/tracking.rs line 10). -/
abbrev UserId := Nat

/-- UserData from src/tracking.rs lines 12-16: the per-subscriber record. -/
structure UserData where
  subscriptions : List CenterId
  chat_id : Int
deriving DecidableEq, Repr

/-- Outcome of reading one key from the redis store and TOML-decoding it:
the key can be missing (redis get fails), present but unparsable, or parse to
a value.  Mirrors the two nested failure branches of get_db_user_data
(src/tracking.rs lines 65-81). -/
inductive Entry (A : Type) where
  | absent
  | corrupt
  | val (a : A)
deriving DecidableEq, Repr

/-- Whether a store read yielded a parsed value. -/
def Entry.isVal {A : Type} : Entry A → Bool
  | .val _ => true
  | _ => false

/-- Association-list lookup: returns the first value stored under the key.
Models HashMap::get from std (hash order is irrelevant to all observations
proved here). -/
def lookupAL {A B : Type} [DecidableEq A] : List (A × B) → A → Option B
  | [], _ => none
  | (k, v) :: rest, a => if k = a then some v else lookupAL rest a

/-- Association-list insert with replacement, models HashMap::insert. -/
def insertAL {A B : Type} [DecidableEq A] : List (A × B) → A → B → List (A × B)
  | [], a, b => [(a, b)]
  | (k, v) :: rest, a, b => if k = a then (a, b) :: rest else (k, v) :: insertAL rest a b

/-- The persistent store: one entry per subscriber id (key = the id) plus the
reserved "all_users" key holding the manifest (AllUsers.list in the source).
Writes performed by the code always store a value that decodes back, so set
stores Entry.val. -/
structure Store where
  users : List (UserId × Entry UserData)
  allUsers : Entry (List UserId)
deriving DecidableEq, Repr

/-- Read a subscriber record key from the store. -/
def Store.getUser (s : Store) (u : UserId) : Entry UserData :=
  (lookupAL s.users u).getD .absent

/-- Write a subscriber record key in the store. -/
def Store.setUser (s : Store) (u : UserId) (d : UserData) : Store :=
  { s with users := insertAL s.users u (.val d) }

/-- Write the "all_users" manifest key in the store. -/
def Store.setAll (s : Store) (l : List UserId) : Store :=
  { s with allUsers := .val l }

/-- The in-memory state of TrackingManager (src/tracking.rs lines 35-39):
user_data is the record cache, all_users is the in-memory manifest
(AllUsers.list). -/
structure TrackState where
  user_data : List (UserId × UserData)
  all_users : List UserId
deriving DecidableEq, Repr

/-- get_db_user_data (src/tracking.rs lines 65-81): read a record from the
store; both the missing-key and the parse-failure branch yield None. -/
def get_db_user_data (store : Store) (user : UserId) : Option UserData :=
  match store.getUser user with
  | .val d => some d
  | _ => none

/-- sync_all_users (src/tracking.rs lines 116-128): reload the in-memory
manifest from the store; on a missing or unparsable key the previous
in-memory manifest is kept. -/
def sync_all_users (st : TrackState) (store : Store) : TrackState :=
  match store.allUsers with
  | .val l => { st with all_users := l }
  | _ => st

/-- sync_with_db (src/tracking.rs lines 130-142): resync the manifest, then
the one subscriber's record (cache entry left unchanged when the record is
missing or unparsable); returns Ok(()) unconditionally. -/
def sync_with_db (st : TrackState) (store : Store) (user : UserId) :
    Except String Unit × TrackState :=
  match get_db_user_data store user with
  | some d =>
    (.ok (), { sync_all_users st store with
               user_data := insertAL (sync_all_users st store).user_data user d })
  | none => (.ok (), sync_all_users st store)

/-- The in-memory state after sync_with_db (whose Except component is always
Ok, see resync_never_fails). -/
def syncState (st : TrackState) (store : Store) (user : UserId) : TrackState :=
  (sync_with_db st store user).2

/-- ensure_user_in_list (src/tracking.rs lines 83-108): read the manifest
from the store; if it parses and lacks the user, append the user, mirror into
memory and persist; if it parses and has the user, do nothing; if it is
missing or unparsable, persist a fresh manifest holding only this user
WITHOUT touching the in-memory manifest. -/
def ensure_user_in_list (st : TrackState) (store : Store) (user : UserId) :
    TrackState × Store :=
  match store.allUsers with
  | .val l =>
    if user ∈ l then (st, store)
    else ({ st with all_users := l ++ [user] }, store.setAll (l ++ [user]))
  | _ => (st, store.setAll [user])

/-- set_db_user_data (src/tracking.rs lines 110-114): ensure the user is in
the manifest, then write the record to the store (the redis set itself is
modeled as succeeding; its error is a transport failure turned into the Err
string by the source, never exercised here). -/
def set_db_user_data (st : TrackState) (store : Store) (user : UserId) (d : UserData) :
    Except String Unit × TrackState × Store :=
  (.ok (), (ensure_user_in_list st store user).1,
    ((ensure_user_in_list st store user).2).setUser user d)

/-- track_center (src/tracking.rs lines 144-164): resync; an existing record
already listing the center fails with the duplicate-track message; otherwise
the center is appended (or a fresh single-element record created) and the
record is persisted. -/
def track_center (st : TrackState) (store : Store) (channel_id : Int) (user : UserId)
    (center : CenterId) : Except String Unit × TrackState × Store :=
  match sync_with_db st store user with
  | (.error e, st1) => (.error e, st1, store)
  | (.ok _, st1) =>
    match lookupAL st1.user_data user with
    | some current =>
      if center ∈ current.subscriptions then
        (.error "You are already tracking this center.", st1, store)
      else
        let current2 : UserData :=
          { current with subscriptions := current.subscriptions ++ [center] }
        let st2 : TrackState := { st1 with user_data := insertAL st1.user_data user current2 }
        set_db_user_data st2 store user current2
    | none =>
      let d : UserData := { subscriptions := [center], chat_id := channel_id }
      let st2 : TrackState := { st1 with user_data := insertAL st1.user_data user d }
      set_db_user_data st2 store user d

/-- removeFirst models Vec::remove at the index returned by position: it
deletes the first occurrence of the element. -/
def removeFirst : List CenterId → CenterId → List CenterId
  | [], _ => []
  | x :: rest, c => if x = c then rest else x :: removeFirst rest c

/-- untrack_center (src/tracking.rs lines 166-183): resync; no record fails
with the not-tracking-any message, a record without the center fails with the
not-tracking-this message; otherwise the first occurrence is removed and the
record persisted. -/
def untrack_center (st : TrackState) (store : Store) (user : UserId)
    (center : CenterId) : Except String Unit × TrackState × Store :=
  match sync_with_db st store user with
  | (.error e, st1) => (.error e, st1, store)
  | (.ok _, st1) =>
    match lookupAL st1.user_data user with
    | some current =>
      if center ∈ current.subscriptions then
        let current2 : UserData :=
          { current with subscriptions := removeFirst current.subscriptions center }
        let st2 : TrackState := { st1 with user_data := insertAL st1.user_data user current2 }
        set_db_user_data st2 store user current2
      else
        (.error "You are not tracking this center!", st1, store)
    | none =>
      (.error "You are not tracking any centers!", st1, store)

/-- get_user_data (src/tracking.rs lines 185-191): resync, then return the
cached record. -/
def get_user_data (st : TrackState) (store : Store) (user : UserId) :
    Except String (Option UserData) × TrackState :=
  match sync_with_db st store user with
  | (.error e, st1) => (.error e, st1)
  | (.ok _, st1) => (.ok (lookupAL st1.user_data user), st1)

/-- bucketPush models the body of the inner loop of get_center_subscribers
(src/tracking.rs lines 199-203): push the user onto the existing bucket for
the center, or insert a fresh single-element bucket. -/
def bucketPush : List (CenterId × List UserId) → CenterId → UserId →
    List (CenterId × List UserId)
  | [], c, u => [(c, [u])]
  | (k, l) :: rest, c, u =>
    if k = c then (k, l ++ [u]) :: rest else (k, l) :: bucketPush rest c u

/-- The inner loop of get_center_subscribers over one user's subscription
list. -/
def addUserSubs (m : List (CenterId × List UserId)) (u : UserId)
    (subs : List CenterId) : List (CenterId × List UserId) :=
  subs.foldl (fun m c => bucketPush m c u) m

/-- The body of the outer loop of get_center_subscribers: a user with a
cache entry is pushed under every center of its record, a user without one
is skipped. -/
def csStep (cache : List (UserId × UserData)) (m : List (CenterId × List UserId))
    (u : UserId) : List (CenterId × List UserId) :=
  match lookupAL cache u with
  | some d => addUserSubs m u d.subscriptions
  | none => m

/-- get_center_subscribers (src/tracking.rs lines 193-209): the reverse index
center id → subscriber ids, built by iterating the in-memory manifest and
pushing each user under every center of its cached record; users without a
cache entry are skipped. -/
def get_center_subscribers (st : TrackState) : List (CenterId × List UserId) :=
  st.all_users.foldl (csStep st.user_data) []

/-- Membership of a user in the bucket the reverse index assigns to a
center. -/
def inBucket (m : List (CenterId × List UserId)) (c : CenterId) (u : UserId) : Bool :=
  match lookupAL m c with
  | some l => decide (u ∈ l)
  | none => false

/-- Center from src/center.rs lines 26-32. -/
structure Center where
  id : CenterId
  short_name : String
  full_name : String
  address : String
deriving DecidableEq, Repr

/-- Slot from src/center.rs lines 57-62: one appointment slot as decoded from
the slot source. -/
structure Slot where
  location_id : CenterId
  start_timestamp : String
deriving DecidableEq, Repr

/-- CollectorMessage from src/center.rs lines 66-71: the worker's work
items. -/
inductive CollectorMessage where
  | requestSlotsForCenter (c : CenterId)
  | notifyUsersOf (c : CenterId) (slots : List Slot)
  | stop
deriving DecidableEq, Repr

/-- The result of chrono NaiveDateTime parsing, restricted to the fields the
code observes (the date for the window test, the full value only for message
formatting). -/
structure NaiveDateTime where
  year : Nat
  month : Nat
  day : Nat
  hour : Nat
  minute : Nat
deriving DecidableEq, Repr

/-- Split a character list at every occurrence of the separator. -/
def splitOnChar (sep : Char) : List Char → List (List Char)
  | [] => [[]]
  | c :: rest =>
    let r := splitOnChar sep rest
    if c = sep then [] :: r
    else
      match r with
      | [] => [[c]]
      | h :: t => (c :: h) :: t

/-- Decode a nonempty all-digit character list as a Nat. -/
def digitsToNat (cs : List Char) : Option Nat :=
  if cs ≠ [] ∧ cs.all Char.isDigit then
    some (cs.foldl (fun n c => n * 10 + (c.toNat - 48)) 0)
  else none

/-- Gregorian leap year. -/
def isLeap (y : Nat) : Bool :=
  y % 4 = 0 && (y % 100 ≠ 0 || y % 400 = 0)

/-- Days in a month of the Gregorian calendar. -/
def daysInMonth (y m : Nat) : Nat :=
  if m = 2 then (if isLeap y then 29 else 28)
  else if m = 4 ∨ m = 6 ∨ m = 9 ∨ m = 11 then 30
  else 31

/-- Model of chrono NaiveDateTime::parse_from_str with the format string
"%Y-%m-%dT%H:%M" used at src/center.rs lines 42 and 142: the whole input must
be date "-" "-" "T" time ":" with numeric fields forming a valid calendar
date and a valid time of day; anything else fails. -/
def parse_from_str (s : String) : Option NaiveDateTime :=
  match splitOnChar 'T' s.data with
  | [datePart, timePart] =>
    match splitOnChar '-' datePart, splitOnChar ':' timePart with
    | [ys, ms, ds], [hs, mins] =>
      match digitsToNat ys, digitsToNat ms, digitsToNat ds,
          digitsToNat hs, digitsToNat mins with
      | some y, some mo, some d, some h, some mi =>
        if 1 ≤ mo ∧ mo ≤ 12 ∧ 1 ≤ d ∧ d ≤ daysInMonth y mo ∧ h < 24 ∧ mi < 60 then
          some { year := y, month := mo, day := d, hour := h, minute := mi }
        else none
      | _, _, _, _, _ => none
    | _, _ => none
  | _ => none

/-- Lexicographic order on (year, month, day) triples, as chrono's NaiveDate
Ord instance. -/
def dateLe (a b : Nat × Nat × Nat) : Bool :=
  decide (a.1 < b.1) ||
    (decide (a.1 = b.1) &&
      (decide (a.2.1 < b.2.1) ||
        (decide (a.2.1 = b.2.1) && decide (a.2.2 ≤ b.2.2))))

/-- The eligibility window test from src/center.rs lines 143-145:
arrival = 2023-01-01, leave = 2023-02-01, and the slot date must satisfy
arrival <= date <= leave. -/
def inWindow (t : NaiveDateTime) : Bool :=
  dateLe (2023, 1, 1) (t.year, t.month, t.day) &&
    dateLe (t.year, t.month, t.day) (2023, 2, 1)

/-- One bot send_message call issued by the notification loop
(src/center.rs lines 146-152), recorded structurally: the subscriber being
iterated, the chat destination, the full name of the looked-up center used by
appointment_avaliable_msg, and the slot the message is about.  A failed
delivery is logged by the code and still counts as one dispatched send. -/
structure Notification where
  user : UserId
  chat_id : Int
  center_full_name : String
  slot : Slot
deriving DecidableEq, Repr

/-- A panic aborting the worker thread: the parse unwrap at src/center.rs
line 142 (also line 42), or the CENTER_LUT index at line 149 for a location
id absent from the table. -/
inductive RtPanic where
  | parsePanic (s : String)
  | lutPanic (c : CenterId)
deriving DecidableEq, Repr

/-- The inner slot loop of the NotifyUsersOf handler for one subscriber with
record d (src/center.rs lines 141-157): parse each timestamp (unwrap: panic
on failure), test the window, and for each in-window slot index CENTER_LUT
(panic on a missing location id) and dispatch one message to the
subscriber's chat. -/
def notifySlotsForUser (lut : List (CenterId × Center)) (d : UserData) (u : UserId) :
    List Slot → Except RtPanic (List Notification)
  | [] => .ok []
  | s :: rest =>
    match parse_from_str s.start_timestamp with
    | none => .error (.parsePanic s.start_timestamp)
    | some t =>
      if inWindow t then
        match lookupAL lut s.location_id with
        | none => .error (.lutPanic s.location_id)
        | some c =>
          match notifySlotsForUser lut d u rest with
          | .error p => .error p
          | .ok ns =>
            .ok ({ user := u, chat_id := d.chat_id,
                   center_full_name := c.full_name, slot := s } :: ns)
      else notifySlotsForUser lut d u rest

/-- The per-subscriber loop of the NotifyUsersOf handler (src/center.rs lines
137-160): resync each subscriber through get_user_data (threading the cache
state), skip subscribers whose resync yields an error or no record, and run
the slot loop for the rest. -/
def notifyUsers (lut : List (CenterId × Center)) (store : Store) :
    TrackState → List UserId → List Slot → Except RtPanic (TrackState × List Notification)
  | st, [], _ => .ok (st, [])
  | st, u :: rest, slots =>
    match get_user_data st store u with
    | (.error _, st1) => notifyUsers lut store st1 rest slots
    | (.ok none, st1) => notifyUsers lut store st1 rest slots
    | (.ok (some d), st1) =>
      match notifySlotsForUser lut d u slots with
      | .error p => .error p
      | .ok ns =>
        match notifyUsers lut store st1 rest slots with
        | .error p => .error p
        | .ok (st2, ns2) => .ok (st2, ns ++ ns2)

/-- The CollectorMessage::NotifyUsersOf handler (src/center.rs lines
132-167): build the reverse index, no-op with a warning on an empty slot
list, no-op with an info log when the center has no bucket, else run the
subscriber loop. -/
def processNotifyUsersOf (lut : List (CenterId × Center)) (st : TrackState)
    (store : Store) (center : CenterId) (slots : List Slot) :
    Except RtPanic (TrackState × List Notification) :=
  let buckets := get_center_subscribers st
  if slots.length > 0 then
    match lookupAL buckets center with
    | some users => notifyUsers lut store st users slots
    | none => .ok (st, [])
  else .ok (st, [])

/-- The outcome of the slot-source HTTP query plus JSON decode performed by
the RequestSlotsForCenter handler: transport failure, decode failure, or a
decoded slot list. -/
inductive FetchResult where
  | transportError
  | decodeError
  | ok (slots : List Slot)
deriving DecidableEq, Repr

/-- The CollectorMessage::RequestSlotsForCenter handler (src/center.rs lines
105-131): on a decoded non-empty slot list re-enqueue NotifyUsersOf onto the
same queue; on an empty list, a decode failure or a transport failure just
log.  Returns the messages enqueued and the bot messages sent by this
handler (always none). -/
def processRequestSlots (center : CenterId) (fetch : FetchResult) :
    List CollectorMessage × List Notification :=
  match fetch with
  | .transportError => ([], [])
  | .decodeError => ([], [])
  | .ok slots =>
    if slots.length > 0 then ([.notifyUsersOf center slots], []) else ([], [])

/-- The due test of the scheduler (src/center.rs line 192):
next_collection_time.is_none() || now >= next_collection_time.unwrap(). -/
def schedDue (next : Option Nat) (now : Nat) : Bool :=
  match next with
  | none => true
  | some t => decide (t ≤ now)

/-- One poll of CenterDataCollectorTask (src/center.rs lines 191-220),
restricted to its observable effects: the updated next_collection_time and
the PollCenter messages enqueued.  When due, next is first set to now + 15s;
a successful try_lock enqueues RequestSlotsForCenter for every key of the
reverse index; on contention nothing is enqueued and next is overwritten
with now + 1s.  When not due, nothing changes. -/
def schedPoll (next : Option Nat) (now : Nat) (lockAcquired : Bool)
    (mgr : TrackState) : Option Nat × List CollectorMessage :=
  if schedDue next now then
    if lockAcquired then
      (some (now + 15),
        (get_center_subscribers mgr).map (fun p => .requestSlotsForCenter p.1))
    else (some (now + 1), [])
  else (next, [])

/-- A center id has at least one subscriber: some manifest member's cached
record subscribes to it. -/
def hasSubscriber (mgr : TrackState) (c : CenterId) : Bool :=
  mgr.all_users.any fun u =>
    match lookupAL mgr.user_data u with
    | some d => decide (c ∈ d.subscriptions)
    | none => false

/-- The record a subscriber's resync settles on: the store record when it is
present and parses, otherwise whatever the cache already held. -/
def syncedUser (store : Store) (st : TrackState) (u : UserId) : Option UserData :=
  match store.getUser u with
  | .val d => some d
  | _ => lookupAL st.user_data u

/-- The subscription count of an optional record at one center. -/
def countSubs (o : Option UserData) (c : CenterId) : Nat :=
  match o with
  | some d => d.subscriptions.count c
  | none => 0

/-- Whether a slot passes the parse + window test. -/
def slotInWindow (s : Slot) : Bool :=
  match parse_from_str s.start_timestamp with
  | some t => inWindow t
  | none => false

/-- The notification one subscriber with record d receives for one slot when
nothing panics: a message exactly when the timestamp parses, the date lies in
the window and the location id is in the lookup table. -/
def slotNotif (lut : List (CenterId × Center)) (u : UserId) (d : UserData)
    (s : Slot) : Option Notification :=
  match parse_from_str s.start_timestamp with
  | some t =>
    if inWindow t then
      (lookupAL lut s.location_id).map fun c =>
        { user := u, chat_id := d.chat_id,
          center_full_name := c.full_name, slot := s }
    else none
  | none => none

/-- The notifications one subscriber with record d receives for a slot list
when nothing panics: one message per slot that parses, lies in the window
and whose location id is in the lookup table. -/
def expectedNotifs (lut : List (CenterId × Center)) (u : UserId) (d : UserData)
    (slots : List Slot) : List Notification :=
  slots.filterMap (slotNotif lut u d)

/-- The in-memory cache-to-manifest invariant: every subscriber id holding a
cache record is listed in the in-memory manifest. -/
def cacheInManifest (st : TrackState) : Bool :=
  st.user_data.all fun p => decide (p.1 ∈ st.all_users)

/-- Whether an Except result is the ok outcome. -/
def exceptIsOk {E A : Type} : Except E A → Bool
  | .ok _ => true
  | .error _ => false

/-- The error payload of an Except result, when there is one. -/
def exceptErr {E A : Type} : Except E A → Option E
  | .ok _ => none
  | .error e => some e

/-! Association-list lemmas. -/

theorem lookupAL_insert_self {A B : Type} [DecidableEq A] (m : List (A × B)) (k : A) (v : B) :
    lookupAL (insertAL m k v) k = some v := by
  induction m with
  | nil => simp [insertAL, lookupAL]
  | cons p rest ih =>
    obtain ⟨a, b⟩ := p
    by_cases h : a = k
    · subst h
      simp [insertAL, lookupAL]
    · simp only [insertAL, if_neg h, lookupAL]
      simp [h, ih]

theorem lookupAL_insert_ne {A B : Type} [DecidableEq A] (m : List (A × B)) (k a : A) (v : B)
    (h : a ≠ k) : lookupAL (insertAL m k v) a = lookupAL m a := by
  induction m with
  | nil => simp [insertAL, lookupAL, Ne.symm h]
  | cons p rest ih =>
    obtain ⟨a0, b0⟩ := p
    by_cases h0 : a0 = k
    · subst h0
      simp [insertAL, lookupAL, Ne.symm h]
    · simp only [insertAL, if_neg h0, lookupAL]
      split <;> simp [ih]

theorem mem_insertAL {A B : Type} [DecidableEq A] {m : List (A × B)} {k : A} {v : B}
    {p : A × B} (h : p ∈ insertAL m k v) : p ∈ m ∨ p = (k, v) := by
  induction m with
  | nil => simpa [insertAL] using h
  | cons q rest ih =>
    obtain ⟨a0, b0⟩ := q
    by_cases h0 : a0 = k
    · subst h0
      simp only [insertAL, if_pos rfl] at h
      rcases List.mem_cons.mp h with h | h
      · exact Or.inr h
      · exact Or.inl (List.mem_cons_of_mem _ h)
    · simp only [insertAL, if_neg h0] at h
      rcases List.mem_cons.mp h with h | h
      · exact Or.inl (by simp [h])
      · rcases ih h with hh | hh
        · exact Or.inl (List.mem_cons_of_mem _ hh)
        · exact Or.inr hh

/-! Resync lemmas. -/

theorem sync_all_users_user_data (st : TrackState) (store : Store) :
    (sync_all_users st store).user_data = st.user_data := by
  cases h : store.allUsers <;> simp [sync_all_users, h]

theorem sync_with_db_eq (st : TrackState) (store : Store) (u : UserId) :
    sync_with_db st store u = (.ok (), syncState st store u) := by
  unfold syncState sync_with_db
  cases h : get_db_user_data store u <;> rfl

theorem syncState_lookup_self (st : TrackState) (store : Store) (u : UserId) :
    lookupAL (syncState st store u).user_data u = syncedUser store st u := by
  unfold syncState sync_with_db syncedUser get_db_user_data
  cases h : store.getUser u <;>
    simp [h, lookupAL_insert_self, sync_all_users_user_data]

theorem syncedUser_syncState (st : TrackState) (store : Store) (w u : UserId) :
    syncedUser store (syncState st store w) u = syncedUser store st u := by
  cases h : store.getUser u with
  | val d => simp [syncedUser, h]
  | absent =>
    simp only [syncedUser, h]
    unfold syncState sync_with_db get_db_user_data
    cases hw : store.getUser w with
    | val dw =>
      have hne : u ≠ w := by
        intro e
        subst e
        rw [h] at hw
        cases hw
      simp [sync_all_users_user_data, lookupAL_insert_ne _ _ _ _ hne]
    | absent => simp [sync_all_users_user_data]
    | corrupt => simp [sync_all_users_user_data]
  | corrupt =>
    simp only [syncedUser, h]
    unfold syncState sync_with_db get_db_user_data
    cases hw : store.getUser w with
    | val dw =>
      have hne : u ≠ w := by
        intro e
        subst e
        rw [h] at hw
        cases hw
      simp [sync_all_users_user_data, lookupAL_insert_ne _ _ _ _ hne]
    | absent => simp [sync_all_users_user_data]
    | corrupt => simp [sync_all_users_user_data]

theorem get_user_data_eq (st : TrackState) (store : Store) (u : UserId) :
    get_user_data st store u = (.ok (syncedUser store st u), syncState st store u) := by
  unfold get_user_data
  rw [sync_with_db_eq]
  simp [syncState_lookup_self]

/-- C10: for every subscriber id and every store state the internal resync
sync_with_db returns Ok, and hence get_user_data never returns an Err: it
always returns Ok carrying the post-resync cached record (or None), so the
caller's Err branch is unreachable. -/
theorem resync_never_fails (st : TrackState) (store : Store) (u : UserId) :
    (sync_with_db st store u).1 = .ok () ∧
    exceptIsOk (get_user_data st store u).1 = true ∧
    (get_user_data st store u).1 = .ok (syncedUser store st u) := by
  refine ⟨?_, ?_, ?_⟩
  · rw [sync_with_db_eq]
  · rw [get_user_data_eq]
    rfl
  · rw [get_user_data_eq]

/-- C2: when the record found after resync already lists the center,
track_center fails with the duplicate-track message and performs no mutation
beyond the resync itself: the returned cache state is exactly the
post-resync state and the store is returned untouched. -/
theorem track_center_already_tracking (st : TrackState) (store : Store) (ch : Int)
    (u : UserId) (c : CenterId) (d : UserData)
    (hd : lookupAL (syncState st store u).user_data u = some d)
    (hc : c ∈ d.subscriptions) :
    track_center st store ch u c =
      (.error "You are already tracking this center.", syncState st store u, store) := by
  unfold track_center
  rw [sync_with_db_eq]
  simp [hd, hc]

/-- C2 witness: subscriber 42 already tracks center 7; the second track
attempt fails and changes nothing. -/
theorem track_center_already_tracking_witness :
    lookupAL (syncState ⟨[(42, ⟨[7], 555⟩)], [42]⟩ ⟨[], .absent⟩ 42).user_data 42 =
      some ⟨[7], 555⟩ ∧
    track_center ⟨[(42, ⟨[7], 555⟩)], [42]⟩ ⟨[], .absent⟩ 999 42 7 =
      (.error "You are already tracking this center.",
        syncState ⟨[(42, ⟨[7], 555⟩)], [42]⟩ ⟨[], .absent⟩ 42, ⟨[], .absent⟩) :=
  ⟨by decide,
    track_center_already_tracking ⟨[(42, ⟨[7], 555⟩)], [42]⟩ ⟨[], .absent⟩ 999 42 7
      ⟨[7], 555⟩ (by decide) (by decide)⟩

/-- C3: when after resync the subscriber has no record or the record does not
list the center (countSubs = 0 covers both), untrack_center fails with one of
the two not-tracking messages and performs no mutation beyond the resync:
the returned cache state is the post-resync state and the store is
untouched. -/
theorem untrack_center_not_tracking (st : TrackState) (store : Store)
    (u : UserId) (c : CenterId)
    (h : countSubs (lookupAL (syncState st store u).user_data u) c = 0) :
    (exceptErr (untrack_center st store u c).1 = some "You are not tracking this center!" ∨
      exceptErr (untrack_center st store u c).1 = some "You are not tracking any centers!") ∧
    (untrack_center st store u c).2.1 = syncState st store u ∧
    (untrack_center st store u c).2.2 = store := by
  unfold untrack_center
  rw [sync_with_db_eq]
  cases hd : lookupAL (syncState st store u).user_data u with
  | none => simp [hd, exceptErr]
  | some d =>
    have hc : c ∉ d.subscriptions := by
      rw [hd] at h
      simpa [countSubs, List.count_eq_zero] using h
    simp [hd, hc, exceptErr]

/-- C3 witness: subscriber 42 tracks only center 7; untracking center 9 fails
and changes nothing. -/
theorem untrack_center_not_tracking_witness :
    countSubs (lookupAL (syncState ⟨[(42, ⟨[7], 555⟩)], [42]⟩ ⟨[], .absent⟩ 42).user_data 42) 9 = 0 ∧
    (exceptErr (untrack_center ⟨[(42, ⟨[7], 555⟩)], [42]⟩ ⟨[], .absent⟩ 42 9).1 =
        some "You are not tracking this center!" ∨
      exceptErr (untrack_center ⟨[(42, ⟨[7], 555⟩)], [42]⟩ ⟨[], .absent⟩ 42 9).1 =
        some "You are not tracking any centers!") ∧
    (untrack_center ⟨[(42, ⟨[7], 555⟩)], [42]⟩ ⟨[], .absent⟩ 42 9).2.1 =
      syncState ⟨[(42, ⟨[7], 555⟩)], [42]⟩ ⟨[], .absent⟩ 42 ∧
    (untrack_center ⟨[(42, ⟨[7], 555⟩)], [42]⟩ ⟨[], .absent⟩ 42 9).2.2 = ⟨[], .absent⟩ :=
  ⟨by decide,
    untrack_center_not_tracking ⟨[(42, ⟨[7], 555⟩)], [42]⟩ ⟨[], .absent⟩ 42 9 (by decide)⟩

/-! Persist-path lemmas. -/

theorem ensure_user_data (st : TrackState) (store : Store) (u : UserId) :
    ((ensure_user_in_list st store u).1).user_data = st.user_data := by
  unfold ensure_user_in_list
  cases h : store.allUsers with
  | val l => by_cases hm : u ∈ l <;> simp [hm]
  | absent => rfl
  | corrupt => rfl

theorem ensure_users_field (st : TrackState) (store : Store) (u : UserId) :
    ((ensure_user_in_list st store u).2).users = store.users := by
  unfold ensure_user_in_list
  cases h : store.allUsers with
  | val l => by_cases hm : u ∈ l <;> simp [hm, Store.setAll]
  | absent => simp [Store.setAll]
  | corrupt => simp [Store.setAll]

theorem setUser_getUser_self (s : Store) (u : UserId) (d : UserData) :
    (s.setUser u d).getUser u = .val d := by
  simp [Store.setUser, Store.getUser, lookupAL_insert_self]

theorem set_db_fst (st : TrackState) (store : Store) (u : UserId) (d : UserData) :
    (set_db_user_data st store u d).1 = .ok () := rfl

theorem set_db_state_user_data (st : TrackState) (store : Store) (u : UserId) (d : UserData) :
    ((set_db_user_data st store u d).2.1).user_data = st.user_data := by
  unfold set_db_user_data
  exact ensure_user_data st store u

theorem set_db_getUser_self (st : TrackState) (store : Store) (u : UserId) (d : UserData) :
    ((set_db_user_data st store u d).2.2).getUser u = .val d := by
  unfold set_db_user_data
  exact setUser_getUser_self _ u d

/-! Success-path shapes of the public operations. -/

theorem untrack_center_success (st : TrackState) (store : Store) (u : UserId)
    (c : CenterId) (d : UserData)
    (hd : syncedUser store st u = some d) (hc : c ∈ d.subscriptions) :
    untrack_center st store u c =
      set_db_user_data
        { syncState st store u with
          user_data := insertAL (syncState st store u).user_data u
            { d with subscriptions := removeFirst d.subscriptions c } }
        store u { d with subscriptions := removeFirst d.subscriptions c } := by
  have hl : lookupAL (syncState st store u).user_data u = some d := by
    rw [syncState_lookup_self]
    exact hd
  unfold untrack_center
  rw [sync_with_db_eq]
  simp [hl, hc]

theorem track_center_append (st : TrackState) (store : Store) (ch : Int) (u : UserId)
    (c : CenterId) (d : UserData)
    (hd : syncedUser store st u = some d) (hc : c ∉ d.subscriptions) :
    track_center st store ch u c =
      set_db_user_data
        { syncState st store u with
          user_data := insertAL (syncState st store u).user_data u
            { d with subscriptions := d.subscriptions ++ [c] } }
        store u { d with subscriptions := d.subscriptions ++ [c] } := by
  have hl : lookupAL (syncState st store u).user_data u = some d := by
    rw [syncState_lookup_self]
    exact hd
  unfold track_center
  rw [sync_with_db_eq]
  simp [hl, hc]

theorem track_center_fresh (st : TrackState) (store : Store) (ch : Int) (u : UserId)
    (c : CenterId) (hd : syncedUser store st u = none) :
    track_center st store ch u c =
      set_db_user_data
        { syncState st store u with
          user_data := insertAL (syncState st store u).user_data u ⟨[c], ch⟩ }
        store u ⟨[c], ch⟩ := by
  have hl : lookupAL (syncState st store u).user_data u = none := by
    rw [syncState_lookup_self]
    exact hd
  unfold track_center
  rw [sync_with_db_eq]
  simp [hl]

/-! Counting after removal of the first occurrence. -/

theorem count_removeFirst (l : List CenterId) (c : CenterId) (h : c ∈ l) :
    (removeFirst l c).count c = l.count c - 1 := by
  induction l with
  | nil => cases h
  | cons x rest ih =>
    by_cases hx : x = c
    · subst hx
      simp [removeFirst, List.count_cons]
    · have hr : c ∈ rest := by
        rcases List.mem_cons.mp h with h1 | h1
        · exact absurd h1.symm hx
        · exact h1
      have hcx : ¬(c = x) := fun e => hx e.symm
      simp [removeFirst, hx, List.count_cons, hcx, ih hr]

theorem track_known_store (st1 : TrackState) (store1 : Store) (ch : Int) (u : UserId)
    (c : CenterId) (d2 : UserData)
    (hg : store1.getUser u = .val d2) (hc : c ∉ d2.subscriptions) :
    (track_center st1 store1 ch u c).1 = .ok () ∧
    lookupAL ((track_center st1 store1 ch u c).2.1).user_data u =
      some { d2 with subscriptions := d2.subscriptions ++ [c] } ∧
    get_db_user_data ((track_center st1 store1 ch u c).2.2) u =
      some { d2 with subscriptions := d2.subscriptions ++ [c] } := by
  have hsync : syncedUser store1 st1 u = some d2 := by simp [syncedUser, hg]
  rw [track_center_append st1 store1 ch u c d2 hsync hc]
  refine ⟨rfl, ?_, ?_⟩
  · rw [set_db_state_user_data]
    exact lookupAL_insert_self _ _ _
  · unfold get_db_user_data
    rw [set_db_getUser_self]

/-- C4: for a subscriber whose post-resync record lists the center exactly
once (the data model forbids duplicate subscriptions), untrack_center
followed by track_center for the same pair succeeds twice and leaves a
record, both in cache and in the store, whose subscription list contains the
center exactly once. -/
theorem untrack_then_track_restores (st : TrackState) (store : Store) (ch : Int)
    (u : UserId) (c : CenterId) (d : UserData)
    (hd : syncedUser store st u = some d)
    (hcount : d.subscriptions.count c = 1) :
    (untrack_center st store u c).1 = .ok () ∧
    (track_center (untrack_center st store u c).2.1
      (untrack_center st store u c).2.2 ch u c).1 = .ok () ∧
    countSubs
      (lookupAL
        ((track_center (untrack_center st store u c).2.1
          (untrack_center st store u c).2.2 ch u c).2.1).user_data u) c = 1 ∧
    countSubs
      (get_db_user_data
        ((track_center (untrack_center st store u c).2.1
          (untrack_center st store u c).2.2 ch u c).2.2) u) c = 1 := by
  have hc : c ∈ d.subscriptions := by
    by_contra hn
    rw [List.count_eq_zero.mpr hn] at hcount
    exact absurd hcount (by decide)
  have hrm : (removeFirst d.subscriptions c).count c = 0 := by
    rw [count_removeFirst _ _ hc, hcount]
  have hc2 : c ∉ removeFirst d.subscriptions c := List.count_eq_zero.mp hrm
  rw [untrack_center_success st store u c d hd hc]
  have hg1 := set_db_getUser_self
    { syncState st store u with
      user_data := insertAL (syncState st store u).user_data u
        { d with subscriptions := removeFirst d.subscriptions c } }
    store u { d with subscriptions := removeFirst d.subscriptions c }
  obtain ⟨h1, h2, h3⟩ := track_known_store _ _ ch u c
    { d with subscriptions := removeFirst d.subscriptions c } hg1 hc2
  refine ⟨rfl, h1, ?_, ?_⟩
  · rw [h2]
    simp [countSubs, List.count_append, hrm]
  · rw [h3]
    simp [countSubs, List.count_append, hrm]

/-- C4 witness: subscriber 42 tracks center 7 (in the store); untracking then
retracking succeeds twice and ends with exactly one subscription to 7. -/
theorem untrack_then_track_restores_witness :
    syncedUser ⟨[(42, .val ⟨[7], 555⟩)], .val [42]⟩ ⟨[], []⟩ 42 = some ⟨[7], 555⟩ ∧
    (untrack_center ⟨[], []⟩ ⟨[(42, .val ⟨[7], 555⟩)], .val [42]⟩ 42 7).1 = .ok () ∧
    (track_center (untrack_center ⟨[], []⟩ ⟨[(42, .val ⟨[7], 555⟩)], .val [42]⟩ 42 7).2.1
      (untrack_center ⟨[], []⟩ ⟨[(42, .val ⟨[7], 555⟩)], .val [42]⟩ 42 7).2.2 777 42 7).1 = .ok () ∧
    countSubs
      (lookupAL
        ((track_center (untrack_center ⟨[], []⟩ ⟨[(42, .val ⟨[7], 555⟩)], .val [42]⟩ 42 7).2.1
          (untrack_center ⟨[], []⟩ ⟨[(42, .val ⟨[7], 555⟩)], .val [42]⟩ 42 7).2.2 777 42 7).2.1).user_data
        42) 7 = 1 ∧
    countSubs
      (get_db_user_data
        ((track_center (untrack_center ⟨[], []⟩ ⟨[(42, .val ⟨[7], 555⟩)], .val [42]⟩ 42 7).2.1
          (untrack_center ⟨[], []⟩ ⟨[(42, .val ⟨[7], 555⟩)], .val [42]⟩ 42 7).2.2 777 42 7).2.2)
        42) 7 = 1 := by
  have h := untrack_then_track_restores ⟨[], []⟩ ⟨[(42, .val ⟨[7], 555⟩)], .val [42]⟩
    777 42 7 ⟨[7], 555⟩ (by decide) (by decide)
  exact ⟨by decide, h.1, h.2.1, h.2.2.1, h.2.2.2⟩

/-! Reverse-index lemmas. -/

theorem csStep_none {cache : List (UserId × UserData)} {w : UserId}
    (hw : lookupAL cache w = none) (m : List (CenterId × List UserId)) :
    csStep cache m w = m := by
  simp [csStep, hw]

theorem csStep_some {cache : List (UserId × UserData)} {w : UserId} {dw : UserData}
    (hw : lookupAL cache w = some dw) (m : List (CenterId × List UserId)) :
    csStep cache m w = addUserSubs m w dw.subscriptions := by
  simp [csStep, hw]

theorem lookupAL_bucketPush (m : List (CenterId × List UserId)) (c0 c : CenterId)
    (u0 : UserId) :
    lookupAL (bucketPush m c0 u0) c =
      if c = c0 then
        match lookupAL m c with
        | some l => some (l ++ [u0])
        | none => some [u0]
      else lookupAL m c := by
  induction m with
  | nil =>
    by_cases h : c = c0
    · subst h
      simp [bucketPush, lookupAL]
    · simp [bucketPush, lookupAL, h, Ne.symm h]
  | cons p rest ih =>
    obtain ⟨k, l⟩ := p
    by_cases hk : k = c0
    · subst hk
      by_cases hc : k = c
      · subst hc
        simp [bucketPush, lookupAL]
      · simp [bucketPush, lookupAL, hc, Ne.symm hc]
    · by_cases hc : k = c
      · subst hc
        simp [bucketPush, lookupAL, hk, fun e : k = k => hk]
      · simp [bucketPush, lookupAL, hk, hc, ih]

theorem inBucket_bucketPush (m : List (CenterId × List UserId)) (c0 c : CenterId)
    (u0 u : UserId) :
    inBucket (bucketPush m c0 u0) c u = true ↔
      (c = c0 ∧ u = u0) ∨ inBucket m c u = true := by
  simp only [inBucket, lookupAL_bucketPush]
  by_cases h : c = c0
  · subst h
    cases hl : lookupAL m c with
    | none => simp
    | some l => simp [List.mem_append, or_comm]
  · simp [h]

theorem inBucket_addUserSubs (subs : List CenterId) (m : List (CenterId × List UserId))
    (u0 : UserId) (c : CenterId) (u : UserId) :
    inBucket (addUserSubs m u0 subs) c u = true ↔
      (c ∈ subs ∧ u = u0) ∨ inBucket m c u = true := by
  induction subs generalizing m with
  | nil => simp [addUserSubs]
  | cons c1 rest ih =>
    show inBucket (addUserSubs (bucketPush m c1 u0) u0 rest) c u = true ↔ _
    rw [ih, inBucket_bucketPush]
    constructor
    · rintro (⟨hcr, rfl⟩ | ⟨rfl, rfl⟩ | hm)
      · exact Or.inl ⟨List.mem_cons_of_mem _ hcr, rfl⟩
      · exact Or.inl ⟨List.mem_cons_self _ _, rfl⟩
      · exact Or.inr hm
    · rintro (⟨hcr, rfl⟩ | hm)
      · rcases List.mem_cons.mp hcr with rfl | hr
        · exact Or.inr (Or.inl ⟨rfl, rfl⟩)
        · exact Or.inl ⟨hr, rfl⟩
      · exact Or.inr (Or.inr hm)

theorem inBucket_fold (cache : List (UserId × UserData)) (users : List UserId)
    (m : List (CenterId × List UserId)) (c : CenterId) (u : UserId) :
    inBucket (users.foldl (csStep cache) m) c u = true ↔
      inBucket m c u = true ∨
        (u ∈ users ∧ ∃ d, lookupAL cache u = some d ∧ c ∈ d.subscriptions) := by
  induction users generalizing m with
  | nil => simp
  | cons w rest ih =>
    simp only [List.foldl_cons]
    cases hw : lookupAL cache w with
    | none =>
      rw [csStep_none hw, ih]
      constructor
      · rintro (hm | ⟨hur, hd⟩)
        · exact Or.inl hm
        · exact Or.inr ⟨List.mem_cons_of_mem _ hur, hd⟩
      · rintro (hm | ⟨hu, d, hld, hcd⟩)
        · exact Or.inl hm
        · rcases List.mem_cons.mp hu with rfl | hur
          · rw [hw] at hld
            cases hld
          · exact Or.inr ⟨hur, d, hld, hcd⟩
    | some dw =>
      rw [csStep_some hw, ih, inBucket_addUserSubs]
      constructor
      · rintro ((⟨hcs, rfl⟩ | hm) | ⟨hur, hd⟩)
        · exact Or.inr ⟨List.mem_cons_self _ _, dw, hw, hcs⟩
        · exact Or.inl hm
        · exact Or.inr ⟨List.mem_cons_of_mem _ hur, hd⟩
      · rintro (hm | ⟨hu, d, hld, hcd⟩)
        · exact Or.inl (Or.inr hm)
        · rcases List.mem_cons.mp hu with rfl | hur
          · rw [hw] at hld
            cases hld
            exact Or.inl (Or.inl ⟨hcd, rfl⟩)
          · exact Or.inr ⟨hur, d, hld, hcd⟩

theorem inBucket_getCS (mgr : TrackState) (c : CenterId) (u : UserId) :
    inBucket (get_center_subscribers mgr) c u = true ↔
      u ∈ mgr.all_users ∧ ∃ d, lookupAL mgr.user_data u = some d ∧ c ∈ d.subscriptions := by
  unfold get_center_subscribers
  rw [inBucket_fold]
  simp [inBucket, lookupAL]

/-! Shape invariants of the reverse index: keys are distinct and every bucket
is nonempty. -/

theorem keys_bucketPush (m : List (CenterId × List UserId)) (c0 : CenterId) (u0 : UserId) :
    (bucketPush m c0 u0).map Prod.fst =
      if c0 ∈ m.map Prod.fst then m.map Prod.fst else m.map Prod.fst ++ [c0] := by
  induction m with
  | nil => simp [bucketPush]
  | cons p rest ih =>
    obtain ⟨k, l⟩ := p
    by_cases hk : k = c0
    · subst hk
      simp [bucketPush]
    · have h2 : ¬c0 = k := fun e => hk e.symm
      simp only [bucketPush, if_neg hk, List.map_cons, List.mem_cons, h2, false_or]
      rw [ih]
      by_cases hm : c0 ∈ rest.map Prod.fst <;> simp [hm]

theorem nodup_keys_bucketPush {m : List (CenterId × List UserId)} (c0 : CenterId)
    (u0 : UserId) (h : (m.map Prod.fst).Nodup) :
    ((bucketPush m c0 u0).map Prod.fst).Nodup := by
  rw [keys_bucketPush]
  by_cases hm : c0 ∈ m.map Prod.fst
  · simpa [hm] using h
  · rw [if_neg hm]
    simp [List.nodup_append, h, hm]

theorem nonempty_bucketPush {m : List (CenterId × List UserId)} (c0 : CenterId)
    (u0 : UserId) (h : ∀ p ∈ m, p.2 ≠ []) :
    ∀ p ∈ bucketPush m c0 u0, p.2 ≠ [] := by
  induction m with
  | nil =>
    intro p hp
    have : p = (c0, [u0]) := by simpa [bucketPush] using hp
    simp [this]
  | cons q rest ih =>
    obtain ⟨k, l⟩ := q
    by_cases hk : k = c0
    · subst hk
      intro p hp
      rcases List.mem_cons.mp (by simpa [bucketPush] using hp) with rfl | hpr
      · simp
      · exact h p (List.mem_cons_of_mem _ hpr)
    · intro p hp
      rcases List.mem_cons.mp (by simpa [bucketPush, hk] using hp) with rfl | hpr
      · exact h (k, l) (List.mem_cons_self _ _)
      · exact ih (fun q hq => h q (List.mem_cons_of_mem _ hq)) p hpr

theorem nodup_keys_addUserSubs (subs : List CenterId) (m : List (CenterId × List UserId))
    (u0 : UserId) (h : (m.map Prod.fst).Nodup) :
    ((addUserSubs m u0 subs).map Prod.fst).Nodup := by
  induction subs generalizing m with
  | nil => exact h
  | cons c1 rest ih => exact ih _ (nodup_keys_bucketPush c1 u0 h)

theorem nonempty_addUserSubs (subs : List CenterId) (m : List (CenterId × List UserId))
    (u0 : UserId) (h : ∀ p ∈ m, p.2 ≠ []) :
    ∀ p ∈ addUserSubs m u0 subs, p.2 ≠ [] := by
  induction subs generalizing m with
  | nil => exact h
  | cons c1 rest ih => exact ih _ (nonempty_bucketPush c1 u0 h)

theorem getCS_invariants (mgr : TrackState) :
    ((get_center_subscribers mgr).map Prod.fst).Nodup ∧
    ∀ p ∈ get_center_subscribers mgr, p.2 ≠ [] := by
  have main : ∀ (users : List UserId) (m : List (CenterId × List UserId)),
      (m.map Prod.fst).Nodup → (∀ p ∈ m, p.2 ≠ []) →
      ((users.foldl (csStep mgr.user_data) m).map Prod.fst).Nodup ∧
      ∀ p ∈ users.foldl (csStep mgr.user_data) m, p.2 ≠ [] := by
    intro users
    induction users with
    | nil => exact fun m h1 h2 => ⟨h1, h2⟩
    | cons w rest ih =>
      intro m h1 h2
      simp only [List.foldl_cons]
      cases hw : lookupAL mgr.user_data w with
      | none =>
        rw [csStep_none hw]
        exact ih m h1 h2
      | some dw =>
        rw [csStep_some hw]
        exact ih _ (nodup_keys_addUserSubs _ _ _ h1) (nonempty_addUserSubs _ _ _ h2)
  exact main mgr.all_users [] (by simp) (by simp)

/-! Generic association-list key lemmas. -/

theorem lookupAL_mem {A B : Type} [DecidableEq A] {m : List (A × B)} {a : A} {b : B}
    (h : lookupAL m a = some b) : (a, b) ∈ m := by
  induction m with
  | nil => cases h
  | cons p rest ih =>
    obtain ⟨k, v⟩ := p
    by_cases hk : k = a
    · subst hk
      have hv : v = b := by simpa [lookupAL] using h
      subst hv
      exact List.mem_cons_self _ _
    · simp only [lookupAL, if_neg hk] at h
      exact List.mem_cons_of_mem _ (ih h)

theorem lookupAL_isSome_of_mem_keys {A B : Type} [DecidableEq A]
    {m : List (A × B)} {a : A} (h : a ∈ m.map Prod.fst) :
    (lookupAL m a).isSome = true := by
  induction m with
  | nil => simp at h
  | cons p rest ih =>
    obtain ⟨k, v⟩ := p
    by_cases hk : k = a
    · subst hk
      simp [lookupAL]
    · have h2 : a ∈ k :: rest.map Prod.fst := by simpa only [List.map_cons] using h
      have hr : a ∈ rest.map Prod.fst := by
        rcases List.mem_cons.mp h2 with h1 | h1
        · exact absurd h1.symm hk
        · exact h1
      simp [lookupAL, hk, ih hr]

theorem mem_keys_of_lookupAL {A B : Type} [DecidableEq A] {m : List (A × B)}
    {a : A} {b : B} (h : lookupAL m a = some b) : a ∈ m.map Prod.fst :=
  List.mem_map.mpr ⟨(a, b), lookupAL_mem h, rfl⟩

theorem hasSubscriber_iff (mgr : TrackState) (c : CenterId) :
    hasSubscriber mgr c = true ↔
      ∃ u, u ∈ mgr.all_users ∧ ∃ d, lookupAL mgr.user_data u = some d ∧ c ∈ d.subscriptions := by
  unfold hasSubscriber
  rw [List.any_eq_true]
  constructor
  · rintro ⟨u, hu, hm⟩
    refine ⟨u, hu, ?_⟩
    cases hl : lookupAL mgr.user_data u with
    | none =>
      rw [hl] at hm
      cases hm
    | some d =>
      rw [hl] at hm
      exact ⟨d, rfl, by simpa using hm⟩
  · rintro ⟨u, hu, d, hl, hc⟩
    exact ⟨u, hu, by simp [hl, hc]⟩

theorem mem_keys_getCS (mgr : TrackState) (c : CenterId) :
    c ∈ (get_center_subscribers mgr).map Prod.fst ↔ hasSubscriber mgr c = true := by
  constructor
  · intro h
    obtain ⟨l, hl⟩ := Option.isSome_iff_exists.mp (lookupAL_isSome_of_mem_keys h)
    have hpair := lookupAL_mem hl
    have hne : l ≠ [] := (getCS_invariants mgr).2 (c, l) hpair
    obtain ⟨u, hu⟩ := List.exists_mem_of_ne_nil l hne
    have hb : inBucket (get_center_subscribers mgr) c u = true := by
      simp [inBucket, hl, hu]
    obtain ⟨h1, d, h2, h3⟩ := (inBucket_getCS mgr c u).mp hb
    exact (hasSubscriber_iff mgr c).mpr ⟨u, h1, d, h2, h3⟩
  · intro h
    obtain ⟨u, hu, d, hl, hc⟩ := (hasSubscriber_iff mgr c).mp h
    have hb := (inBucket_getCS mgr c u).mpr ⟨hu, d, hl, hc⟩
    unfold inBucket at hb
    cases hl2 : lookupAL (get_center_subscribers mgr) c with
    | none =>
      rw [hl2] at hb
      cases hb
    | some l => exact mem_keys_of_lookupAL hl2

/-- C1 (amended): for every subscriber id u that is present in the in-memory
Manifest and has a cached record with a non-empty subscription list, the
reverse index returned by get_center_subscribers maps every center id in u's
subscription list to a bucket containing u, and u appears in no bucket for a
center id not in u's subscription list.  (The Manifest-membership hypothesis
is required: see reverse_index_counterexample.) -/
theorem reverse_index_buckets (mgr : TrackState) (u : UserId) (d : UserData)
    (hu : u ∈ mgr.all_users) (hd : lookupAL mgr.user_data u = some d)
    (hne : d.subscriptions ≠ []) :
    (∀ c, c ∈ d.subscriptions → inBucket (get_center_subscribers mgr) c u = true) ∧
    (∀ c, inBucket (get_center_subscribers mgr) c u = true → c ∈ d.subscriptions) := by
  constructor
  · intro c hc
    exact (inBucket_getCS mgr c u).mpr ⟨hu, d, hd, hc⟩
  · intro c hb
    obtain ⟨-, d2, hd2, hc⟩ := (inBucket_getCS mgr c u).mp hb
    rw [hd] at hd2
    cases hd2
    exact hc

/-- C1 counterexample: subscriber 42 has a cached record with the non-empty
subscription list [7], yet the reverse index is empty — 42 appears under no
center at all — because 42 is missing from the in-memory Manifest.  The
claim as stated (quantifying over every subscriber with a non-empty cached
subscription list, with no Manifest condition) is therefore false. -/
theorem reverse_index_counterexample :
    lookupAL (TrackState.user_data ⟨[(42, ⟨[7], 555⟩)], []⟩) 42 = some ⟨[7], 555⟩ ∧
    (7 : CenterId) ∈ UserData.subscriptions ⟨[7], 555⟩ ∧
    inBucket (get_center_subscribers ⟨[(42, ⟨[7], 555⟩)], []⟩) 7 42 = false := by
  decide

/-- C1 witness: subscriber 42 in the Manifest tracking center 7 appears in
center 7's bucket and not in center 9's. -/
theorem reverse_index_buckets_witness :
    inBucket (get_center_subscribers ⟨[(42, ⟨[7], 555⟩)], [42]⟩) 7 42 = true ∧
    inBucket (get_center_subscribers ⟨[(42, ⟨[7], 555⟩)], [42]⟩) 9 42 = false := by
  have h := reverse_index_buckets ⟨[(42, ⟨[7], 555⟩)], [42]⟩ 42 ⟨[7], 555⟩
    (by decide) (by decide) (by decide)
  refine ⟨h.1 7 (by decide), ?_⟩
  cases hb : inBucket (get_center_subscribers ⟨[(42, ⟨[7], 555⟩)], [42]⟩) 9 42
  · rfl
  · exact absurd (h.2 9 hb) (by decide)

theorem count_req_map (m : List (CenterId × List UserId)) (c : CenterId) :
    ((m.map fun p => CollectorMessage.requestSlotsForCenter p.1).count
      (.requestSlotsForCenter c)) = (m.map Prod.fst).count c := by
  induction m with
  | nil => rfl
  | cons p rest ih =>
    by_cases hp : p.1 = c
    · simp [List.count_cons, ih, hp]
    · have hne : ¬c = p.1 := fun e => hp e.symm
      have hne2 : ¬CollectorMessage.requestSlotsForCenter c = .requestSlotsForCenter p.1 := by
        intro e
        injection e with e1
        exact hne e1
      simp [List.count_cons, ih, hne, hne2]

/-- C7: on a due scheduler poll, lock contention enqueues nothing and sets
next-due to now + 1 second; a successful non-blocking acquisition sets
next-due to now + 15 seconds and enqueues exactly one PollCenter work item
for every center id with at least one subscriber and none for any other
center id. -/
theorem scheduler_tick (next : Option Nat) (now : Nat) (mgr : TrackState)
    (hdue : schedDue next now = true) :
    schedPoll next now false mgr = (some (now + 1), []) ∧
    (schedPoll next now true mgr).1 = some (now + 15) ∧
    ∀ c, (schedPoll next now true mgr).2.count (.requestSlotsForCenter c) =
      if hasSubscriber mgr c = true then 1 else 0 := by
  refine ⟨by simp [schedPoll, hdue], by simp [schedPoll, hdue], ?_⟩
  intro c
  have hmsgs : (schedPoll next now true mgr).2 =
      (get_center_subscribers mgr).map
        (fun p => CollectorMessage.requestSlotsForCenter p.1) := by
    simp [schedPoll, hdue]
  rw [hmsgs, count_req_map]
  by_cases hc : hasSubscriber mgr c = true
  · rw [if_pos hc]
    exact List.count_eq_one_of_mem (getCS_invariants mgr).1 ((mem_keys_getCS mgr c).mpr hc)
  · rw [if_neg hc]
    refine List.count_eq_zero.mpr ?_
    intro hmem
    exact hc ((mem_keys_getCS mgr c).mp hmem)

/-- C7 witness: with subscriber 42 tracking center 7, a due tick under
contention enqueues nothing and retries in 1 second; a due tick holding the
lock schedules 15 seconds ahead and enqueues one PollCenter for center 7 and
none for center 9. -/
theorem scheduler_tick_witness :
    schedPoll none 0 false ⟨[(42, ⟨[7], 555⟩)], [42]⟩ = (some 1, []) ∧
    (schedPoll none 0 true ⟨[(42, ⟨[7], 555⟩)], [42]⟩).1 = some 15 ∧
    (schedPoll none 0 true ⟨[(42, ⟨[7], 555⟩)], [42]⟩).2.count
      (.requestSlotsForCenter 7) = 1 ∧
    (schedPoll none 0 true ⟨[(42, ⟨[7], 555⟩)], [42]⟩).2.count
      (.requestSlotsForCenter 9) = 0 := by
  have h := scheduler_tick none 0 ⟨[(42, ⟨[7], 555⟩)], [42]⟩ (by decide)
  refine ⟨h.1, h.2.1, ?_, ?_⟩
  · have h7 := h.2.2 7
    rwa [if_pos (by decide)] at h7
  · have h9 := h.2.2 9
    rwa [if_neg (by decide)] at h9

/-- C6: when the slot-source query for a center succeeds and decodes to an
empty list, the worker enqueues nothing and sends nothing; when it decodes
to a non-empty list, exactly one NotifyCenter message carrying exactly the
decoded slots is enqueued onto the same queue, and still nothing is sent by
this handler. -/
theorem poll_center_enqueue (center : CenterId) (slots : List Slot)
    (hne : slots ≠ []) :
    processRequestSlots center (.ok []) = ([], []) ∧
    processRequestSlots center (.ok slots) = ([.notifyUsersOf center slots], []) := by
  refine ⟨rfl, ?_⟩
  have hpos : slots.length > 0 := List.length_pos.mpr hne
  simp [processRequestSlots, hpos]

/-- C6 witness: center 7 with one decoded slot enqueues exactly the
NotifyCenter item; an empty decode enqueues nothing. -/
theorem poll_center_enqueue_witness :
    processRequestSlots 7 (.ok []) = ([], []) ∧
    processRequestSlots 7 (.ok [⟨7, "2023-01-15T10:30"⟩]) =
      ([.notifyUsersOf 7 [⟨7, "2023-01-15T10:30"⟩]], []) :=
  poll_center_enqueue 7 [⟨7, "2023-01-15T10:30"⟩] (by decide)

/-! Error-path shapes of the public operations. -/

theorem track_center_already_eq (st : TrackState) (store : Store) (ch : Int)
    (u : UserId) (c : CenterId) (cur : UserData)
    (hl : lookupAL (syncState st store u).user_data u = some cur)
    (hc : c ∈ cur.subscriptions) :
    track_center st store ch u c =
      (.error "You are already tracking this center.", syncState st store u, store) := by
  unfold track_center
  rw [sync_with_db_eq]
  simp [hl, hc]

theorem untrack_center_none_eq (st : TrackState) (store : Store) (u : UserId)
    (c : CenterId) (hl : lookupAL (syncState st store u).user_data u = none) :
    untrack_center st store u c =
      (.error "You are not tracking any centers!", syncState st store u, store) := by
  unfold untrack_center
  rw [sync_with_db_eq]
  simp [hl]

theorem untrack_center_absent_eq (st : TrackState) (store : Store) (u : UserId)
    (c : CenterId) (cur : UserData)
    (hl : lookupAL (syncState st store u).user_data u = some cur)
    (hc : c ∉ cur.subscriptions) :
    untrack_center st store u c =
      (.error "You are not tracking this center!", syncState st store u, store) := by
  unfold untrack_center
  rw [sync_with_db_eq]
  simp [hl, hc]

theorem set_db_state_eq (st : TrackState) (store : Store) (u : UserId) (d : UserData) :
    (set_db_user_data st store u d).2.1 = (ensure_user_in_list st store u).1 := rfl

/-! Manifest-invariant lemmas. -/

theorem cacheInManifest_of (st2 : TrackState) (L : List UserId) (hA : st2.all_users = L)
    (hC : ∀ p ∈ st2.user_data, p.1 ∈ L) : cacheInManifest st2 = true := by
  unfold cacheInManifest
  rw [List.all_eq_true]
  intro p hp
  rw [hA]
  exact decide_eq_true (hC p hp)

theorem syncState_all_users (st : TrackState) (store : Store) (u : UserId)
    (L : List UserId) (hL : store.allUsers = .val L) :
    (syncState st store u).all_users = L := by
  unfold syncState sync_with_db
  cases h : get_db_user_data store u <;> simp [sync_all_users, hL]

theorem syncState_user_data_shape (st : TrackState) (store : Store) (u : UserId) :
    (syncState st store u).user_data = st.user_data ∨
    ∃ d, store.getUser u = .val d ∧
      (syncState st store u).user_data = insertAL st.user_data u d := by
  unfold syncState sync_with_db get_db_user_data
  cases h : store.getUser u with
  | val d => exact Or.inr ⟨d, rfl, by simp [sync_all_users_user_data]⟩
  | absent => exact Or.inl (by simp [sync_all_users_user_data])
  | corrupt => exact Or.inl (by simp [sync_all_users_user_data])

theorem getUser_val_mem {store : Store} {u : UserId} {d : UserData} {L : List UserId}
    (hstore : ∀ p ∈ store.users, p.2.isVal = true → p.1 ∈ L)
    (h : store.getUser u = .val d) : u ∈ L := by
  unfold Store.getUser at h
  cases hl : lookupAL store.users u with
  | none =>
    rw [hl] at h
    simp [Option.getD] at h
  | some e =>
    rw [hl] at h
    have he : e = Entry.val d := by simpa using h
    refine hstore (u, e) (lookupAL_mem hl) ?_
    rw [he]
    rfl

theorem syncState_cache_mem (st : TrackState) (store : Store) (u : UserId)
    (L : List UserId)
    (hcache : ∀ p ∈ st.user_data, p.1 ∈ L)
    (hstore : ∀ p ∈ store.users, p.2.isVal = true → p.1 ∈ L) :
    ∀ p ∈ (syncState st store u).user_data, p.1 ∈ L := by
  rcases syncState_user_data_shape st store u with h | ⟨d, hg, h⟩
  · rw [h]
    exact hcache
  · rw [h]
    intro p hp
    rcases mem_insertAL hp with hm | hpe
    · exact hcache p hm
    · rw [hpe]
      exact getUser_val_mem hstore hg

theorem ensure_val_mem (st2 : TrackState) (store : Store) (u : UserId) (L : List UserId)
    (hL : store.allUsers = .val L) (hm : u ∈ L) :
    ensure_user_in_list st2 store u = (st2, store) := by
  unfold ensure_user_in_list
  rw [hL]
  simp [hm]

theorem ensure_val_not_mem (st2 : TrackState) (store : Store) (u : UserId) (L : List UserId)
    (hL : store.allUsers = .val L) (hm : u ∉ L) :
    ensure_user_in_list st2 store u =
      ({ st2 with all_users := L ++ [u] }, store.setAll (L ++ [u])) := by
  unfold ensure_user_in_list
  rw [hL]
  simp [hm]

theorem ensure_preserves_inv (st2 : TrackState) (store : Store) (u : UserId)
    (L : List UserId) (hL : store.allUsers = .val L) (hA : st2.all_users = L)
    (hC : ∀ p ∈ st2.user_data, p.1 ∈ L ∨ p.1 = u) :
    cacheInManifest (ensure_user_in_list st2 store u).1 = true := by
  by_cases hm : u ∈ L
  · rw [ensure_val_mem st2 store u L hL hm]
    apply cacheInManifest_of _ L hA
    intro p hp
    rcases hC p hp with h | h
    · exact h
    · rw [h]
      exact hm
  · rw [ensure_val_not_mem st2 store u L hL hm]
    apply cacheInManifest_of _ (L ++ [u]) rfl
    intro p hp
    rcases hC p hp with h | h
    · exact List.mem_append_left _ h
    · rw [h]
      exact List.mem_append_right _ (List.mem_cons_self _ _)

/-- C9 counterexample: starting from an empty cache and a store with no
manifest key, track_center succeeds and leaves subscriber 42's record in the
in-memory cache while the in-memory Manifest stays empty (the fallback of
ensure_user_in_list persists a fresh manifest to the store but never updates
the in-memory one), so the claimed invariant is false right after a public
cache operation, and the record is unreachable by the reverse index. -/
theorem manifest_invariant_counterexample :
    (track_center ⟨[], []⟩ ⟨[], .absent⟩ 555 42 7).1 = .ok () ∧
    lookupAL ((track_center ⟨[], []⟩ ⟨[], .absent⟩ 555 42 7).2.1).user_data 42 =
      some ⟨[7], 555⟩ ∧
    (track_center ⟨[], []⟩ ⟨[], .absent⟩ 555 42 7).2.1.all_users = [] ∧
    cacheInManifest (track_center ⟨[], []⟩ ⟨[], .absent⟩ 555 42 7).2.1 = false ∧
    get_center_subscribers (track_center ⟨[], []⟩ ⟨[], .absent⟩ 555 42 7).2.1 = [] := by
  refine ⟨rfl, by decide, by decide, by decide, by decide⟩

/-- C9 (amended): the invariant that every subscriber id with a cache entry
is listed in the in-memory Manifest is preserved by track_center,
untrack_center and get_user_data PROVIDED the store's manifest key is
present and parseable, it lists every cached subscriber, and it lists every
subscriber that has a parseable store record.  (When the store manifest is
absent or unparsable, the fallback of ensure_user_in_list rewrites only the
store, not the in-memory Manifest — see
manifest_invariant_counterexample.) -/
theorem manifest_invariant_preserved (st : TrackState) (store : Store) (ch : Int)
    (u : UserId) (c : CenterId) (L : List UserId)
    (hL : store.allUsers = .val L)
    (hcache : ∀ p ∈ st.user_data, p.1 ∈ L)
    (hstore : ∀ p ∈ store.users, p.2.isVal = true → p.1 ∈ L) :
    cacheInManifest (track_center st store ch u c).2.1 = true ∧
    cacheInManifest (untrack_center st store u c).2.1 = true ∧
    cacheInManifest (get_user_data st store u).2 = true := by
  have hA := syncState_all_users st store u L hL
  have hC := syncState_cache_mem st store u L hcache hstore
  refine ⟨?_, ?_, ?_⟩
  · cases hl : lookupAL (syncState st store u).user_data u with
    | some cur =>
      by_cases hc : c ∈ cur.subscriptions
      · rw [track_center_already_eq st store ch u c cur hl hc]
        exact cacheInManifest_of _ L hA hC
      · have hsyncu : syncedUser store st u = some cur := by
          rw [← syncState_lookup_self]
          exact hl
        rw [track_center_append st store ch u c cur hsyncu hc, set_db_state_eq]
        apply ensure_preserves_inv _ store u L hL
        · exact hA
        · intro p hp
          rcases mem_insertAL hp with hm | hpe
          · exact Or.inl (hC p hm)
          · exact Or.inr (by rw [hpe])
    | none =>
      have hsyncu : syncedUser store st u = none := by
        rw [← syncState_lookup_self]
        exact hl
      rw [track_center_fresh st store ch u c hsyncu, set_db_state_eq]
      apply ensure_preserves_inv _ store u L hL
      · exact hA
      · intro p hp
        rcases mem_insertAL hp with hm | hpe
        · exact Or.inl (hC p hm)
        · exact Or.inr (by rw [hpe])
  · cases hl : lookupAL (syncState st store u).user_data u with
    | some cur =>
      by_cases hc : c ∈ cur.subscriptions
      · have hsyncu : syncedUser store st u = some cur := by
          rw [← syncState_lookup_self]
          exact hl
        rw [untrack_center_success st store u c cur hsyncu hc, set_db_state_eq]
        apply ensure_preserves_inv _ store u L hL
        · exact hA
        · intro p hp
          rcases mem_insertAL hp with hm | hpe
          · exact Or.inl (hC p hm)
          · exact Or.inr (by rw [hpe])
      · rw [untrack_center_absent_eq st store u c cur hl hc]
        exact cacheInManifest_of _ L hA hC
    | none =>
      rw [untrack_center_none_eq st store u c hl]
      exact cacheInManifest_of _ L hA hC
  · rw [get_user_data_eq]
    exact cacheInManifest_of _ L hA hC

/-- C9 witness: with a consistent store (manifest [42], record for 42), the
invariant holds after all three public operations on subscriber 42 and
center 7. -/
theorem manifest_invariant_preserved_witness :
    cacheInManifest
      (track_center ⟨[(42, ⟨[7], 555⟩)], [42]⟩ ⟨[(42, .val ⟨[7], 555⟩)], .val [42]⟩
        555 42 7).2.1 = true ∧
    cacheInManifest
      (untrack_center ⟨[(42, ⟨[7], 555⟩)], [42]⟩ ⟨[(42, .val ⟨[7], 555⟩)], .val [42]⟩
        42 7).2.1 = true ∧
    cacheInManifest
      (get_user_data ⟨[(42, ⟨[7], 555⟩)], [42]⟩ ⟨[(42, .val ⟨[7], 555⟩)], .val [42]⟩
        42).2 = true :=
  manifest_invariant_preserved ⟨[(42, ⟨[7], 555⟩)], [42]⟩
    ⟨[(42, .val ⟨[7], 555⟩)], .val [42]⟩ 555 42 7 [42] (by decide) (by decide) (by decide)

/-! Notification-loop lemmas. -/

/-- Abbreviation for the notification record built by the send loop. -/
def mkNotif (u : UserId) (ch : Int) (name : String) (s : Slot) : Notification :=
  { user := u, chat_id := ch, center_full_name := name, slot := s }

theorem slotNotif_some {lut : List (CenterId × Center)} {u : UserId} {d : UserData}
    {s : Slot} {n : Notification} (h : slotNotif lut u d s = some n) :
    n.user = u ∧ n.chat_id = d.chat_id ∧ n.slot = s := by
  unfold slotNotif at h
  cases hp : parse_from_str s.start_timestamp with
  | none =>
    rw [hp] at h
    cases h
  | some t =>
    rw [hp] at h
    have h1 : (if inWindow t then (lookupAL lut s.location_id).map (fun c => mkNotif u d.chat_id c.full_name s) else none) = some n := h
    by_cases hw : inWindow t = true
    · rw [if_pos hw] at h1
      cases hcl : lookupAL lut s.location_id with
      | none =>
        rw [hcl] at h1
        cases h1
      | some cen =>
        rw [hcl] at h1
        have h2 : mkNotif u d.chat_id cen.full_name s = n := by simpa using h1
        rw [← h2]
        exact ⟨rfl, rfl, rfl⟩
    · rw [if_neg hw] at h1
      cases h1

theorem slotNotif_isSome {lut : List (CenterId × Center)} {u : UserId} {d : UserData}
    {s : Slot}
    (hl : ∀ t, parse_from_str s.start_timestamp = some t → inWindow t = true →
      (lookupAL lut s.location_id).isSome = true) :
    (slotNotif lut u d s).isSome = slotInWindow s := by
  unfold slotNotif slotInWindow
  cases hp : parse_from_str s.start_timestamp with
  | none => rfl
  | some t =>
    show (if inWindow t then (lookupAL lut s.location_id).map (fun c => mkNotif u d.chat_id c.full_name s) else none).isSome = inWindow t
    by_cases hw : inWindow t = true
    · rw [if_pos hw, hw]
      have hsome := hl t hp hw
      cases hlu : lookupAL lut s.location_id with
      | none =>
        rw [hlu] at hsome
        cases hsome
      | some cen => rfl
    · have hw2 : inWindow t = false := by
        cases hwe : inWindow t
        · rfl
        · exact absurd hwe hw
      rw [if_neg hw, hw2]
      rfl

theorem expectedNotifs_cons (lut : List (CenterId × Center)) (u : UserId) (d : UserData)
    (s1 : Slot) (rest : List Slot) :
    expectedNotifs lut u d (s1 :: rest) =
      match slotNotif lut u d s1 with
      | some n => n :: expectedNotifs lut u d rest
      | none => expectedNotifs lut u d rest := by
  unfold expectedNotifs
  rw [List.filterMap_cons]
  cases slotNotif lut u d s1 <;> rfl

theorem mem_expectedNotifs {lut : List (CenterId × Center)} {w : UserId} {dw : UserData}
    {slots : List Slot} {n : Notification} (h : n ∈ expectedNotifs lut w dw slots) :
    n.user = w ∧ n.chat_id = dw.chat_id ∧ n.slot ∈ slots := by
  obtain ⟨s2, hs2, hsome⟩ := List.mem_filterMap.mp h
  obtain ⟨h1, h2, h3⟩ := slotNotif_some hsome
  exact ⟨h1, h2, by rw [h3]; exact hs2⟩

theorem notifySlotsForUser_ok (lut : List (CenterId × Center)) (d : UserData)
    (u : UserId) (slots : List Slot)
    (hparse : ∀ s ∈ slots, (parse_from_str s.start_timestamp).isSome = true)
    (hlut : ∀ s ∈ slots, ∀ t, parse_from_str s.start_timestamp = some t →
      inWindow t = true → (lookupAL lut s.location_id).isSome = true) :
    notifySlotsForUser lut d u slots = .ok (expectedNotifs lut u d slots) := by
  induction slots with
  | nil => rfl
  | cons s rest ih =>
    have hp := hparse s (List.mem_cons_self _ _)
    obtain ⟨t, ht⟩ := Option.isSome_iff_exists.mp hp
    have ihr := ih (fun s2 h2 => hparse s2 (List.mem_cons_of_mem _ h2))
      (fun s2 h2 => hlut s2 (List.mem_cons_of_mem _ h2))
    by_cases hw : inWindow t = true
    · obtain ⟨cen, hcen⟩ :=
        Option.isSome_iff_exists.mp (hlut s (List.mem_cons_self _ _) t ht hw)
      have hsn : slotNotif lut u d s = some (mkNotif u d.chat_id cen.full_name s) := by
        simp [slotNotif, mkNotif, ht, hw, hcen]
      simp [notifySlotsForUser, mkNotif, ht, hw, hcen, ihr, expectedNotifs_cons, hsn]
    · have hw2 : inWindow t = false := by
        cases hwe : inWindow t
        · rfl
        · exact absurd hwe hw
      have hsn : slotNotif lut u d s = none := by
        simp [slotNotif, ht, hw2]
      simp [notifySlotsForUser, ht, hw2, ihr, expectedNotifs_cons, hsn]

/-- The notifications one iteration of the subscriber loop dispatches for
subscriber w: its expected notifications when its resync settles on a
record, nothing otherwise. -/
def userNotifs (lut : List (CenterId × Center)) (store : Store) (st : TrackState)
    (slots : List Slot) (w : UserId) : List Notification :=
  match syncedUser store st w with
  | some d => expectedNotifs lut w d slots
  | none => []

/-- The notifications the whole subscriber loop dispatches: concatenation,
in bucket order, of each subscriber's expected notifications. -/
def expectedForUsers (lut : List (CenterId × Center)) (store : Store) (st : TrackState)
    (users : List UserId) (slots : List Slot) : List Notification :=
  users.flatMap (userNotifs lut store st slots)

theorem userNotifs_none {store : Store} {st : TrackState} {w : UserId}
    (lut : List (CenterId × Center)) (slots : List Slot)
    (h : syncedUser store st w = none) : userNotifs lut store st slots w = [] := by
  simp [userNotifs, h]

theorem userNotifs_some {store : Store} {st : TrackState} {w : UserId} {d : UserData}
    (lut : List (CenterId × Center)) (slots : List Slot)
    (h : syncedUser store st w = some d) :
    userNotifs lut store st slots w = expectedNotifs lut w d slots := by
  simp [userNotifs, h]

theorem expectedForUsers_congr (lut : List (CenterId × Center)) (store : Store)
    (st1 st2 : TrackState) (users : List UserId) (slots : List Slot)
    (h : ∀ w, syncedUser store st1 w = syncedUser store st2 w) :
    expectedForUsers lut store st1 users slots =
      expectedForUsers lut store st2 users slots := by
  unfold expectedForUsers userNotifs
  congr 1
  funext w
  rw [h w]

theorem expectedForUsers_cons (lut : List (CenterId × Center)) (store : Store)
    (st : TrackState) (w : UserId) (rest : List UserId) (slots : List Slot) :
    expectedForUsers lut store st (w :: rest) slots =
      userNotifs lut store st slots w ++ expectedForUsers lut store st rest slots := by
  unfold expectedForUsers
  rw [List.flatMap_cons]

theorem notifyUsers_ok (lut : List (CenterId × Center)) (store : Store)
    (slots : List Slot)
    (hparse : ∀ s ∈ slots, (parse_from_str s.start_timestamp).isSome = true)
    (hlut : ∀ s ∈ slots, ∀ t, parse_from_str s.start_timestamp = some t →
      inWindow t = true → (lookupAL lut s.location_id).isSome = true) :
    ∀ (users : List UserId) (st : TrackState),
      ∃ st2, notifyUsers lut store st users slots =
        .ok (st2, expectedForUsers lut store st users slots) := by
  intro users
  induction users with
  | nil => exact fun st => ⟨st, rfl⟩
  | cons w rest ih =>
    intro st
    have hg := get_user_data_eq st store w
    have hcong : expectedForUsers lut store (syncState st store w) rest slots =
        expectedForUsers lut store st rest slots :=
      expectedForUsers_congr lut store _ _ rest slots
        (fun x => syncedUser_syncState st store w x)
    obtain ⟨st2, ih2⟩ := ih (syncState st store w)
    cases hs : syncedUser store st w with
    | none =>
      refine ⟨st2, ?_⟩
      have main : notifyUsers lut store st (w :: rest) slots =
          notifyUsers lut store (syncState st store w) rest slots := by
        simp [notifyUsers, hg, hs]
      rw [main, ih2, hcong, expectedForUsers_cons, userNotifs_none lut slots hs]
      rfl
    | some dw =>
      refine ⟨st2, ?_⟩
      have hn := notifySlotsForUser_ok lut dw w slots hparse hlut
      have main : notifyUsers lut store st (w :: rest) slots =
          .ok (st2, expectedNotifs lut w dw slots ++
            expectedForUsers lut store (syncState st store w) rest slots) := by
        simp [notifyUsers, hg, hs, hn, ih2]
      rw [main, hcong, expectedForUsers_cons, userNotifs_some lut slots hs]

theorem mem_userNotifs {lut : List (CenterId × Center)} {store : Store} {st : TrackState}
    {slots : List Slot} {w : UserId} {n : Notification}
    (h : n ∈ userNotifs lut store st slots w) :
    ∃ dw, syncedUser store st w = some dw ∧ n.user = w ∧ n.chat_id = dw.chat_id ∧
      n.slot ∈ slots := by
  unfold userNotifs at h
  cases hs : syncedUser store st w with
  | none =>
    rw [hs] at h
    exact absurd h (List.not_mem_nil n)
  | some dw =>
    rw [hs] at h
    obtain ⟨h1, h2, h3⟩ := mem_expectedNotifs h
    exact ⟨dw, rfl, h1, h2, h3⟩

theorem filter_expectedForUsers (lut : List (CenterId × Center)) (store : Store)
    (st : TrackState) (slots : List Slot) (u : UserId) (d : UserData)
    (hd : syncedUser store st u = some d) :
    ∀ users : List UserId, users.count u = 1 →
      (expectedForUsers lut store st users slots).filter (fun n => n.user == u) =
        expectedNotifs lut u d slots := by
  intro users
  induction users with
  | nil =>
    intro h0
    simp at h0
  | cons w rest ih =>
    intro hcount
    rw [expectedForUsers_cons, List.filter_append]
    by_cases hw : w = u
    · subst hw
      have hrest0 : rest.count w = 0 := by
        have hcc := List.count_cons_self w rest
        omega
      have hnotin : w ∉ rest := List.count_eq_zero.mp hrest0
      have h1 : (userNotifs lut store st slots w).filter (fun n => n.user == w) =
          expectedNotifs lut w d slots := by
        rw [userNotifs_some lut slots hd]
        apply List.filter_eq_self.mpr
        intro n hn
        have hnu := (mem_expectedNotifs hn).1
        simp [hnu]
      have h2 : (expectedForUsers lut store st rest slots).filter
          (fun n => n.user == w) = [] := by
        apply List.filter_eq_nil.mpr
        intro n hn
        obtain ⟨w2, hw2, hn2⟩ := List.mem_flatMap.mp hn
        obtain ⟨dw2, -, hnu, -, -⟩ := mem_userNotifs hn2
        simp [hnu]
        exact fun e => hnotin (e ▸ hw2)
      rw [h1, h2, List.append_nil]
    · have hne : ¬u = w := fun e => hw e.symm
      have hcount2 : rest.count u = 1 := by
        rw [List.count_cons] at hcount
        simpa [hw] using hcount
      have hhead : (userNotifs lut store st slots w).filter (fun n => n.user == u) = [] := by
        apply List.filter_eq_nil.mpr
        intro n hn
        obtain ⟨dw2, -, hnu, -, -⟩ := mem_userNotifs hn
        simp [hnu]
        exact fun e => hw e
      rw [hhead, ih hcount2, List.nil_append]

theorem filter_and_eq (notifs : List Notification) (u : UserId) (s : Slot) :
    notifs.filter (fun n => n.user == u && n.slot == s) =
      (notifs.filter (fun n => n.user == u)).filter (fun n => n.slot == s) := by
  induction notifs with
  | nil => rfl
  | cons n rest ih =>
    by_cases h1 : (n.user == u) = true
    · by_cases h2 : (n.slot == s) = true
      · simp [List.filter_cons, h1, h2, ih]
      · simp [List.filter_cons, h1, h2, ih]
    · simp [List.filter_cons, h1, ih]

theorem expectedNotifs_filter_slot (lut : List (CenterId × Center)) (u : UserId)
    (d : UserData) (slots : List Slot) (s : Slot)
    (hs : s ∈ slots) (hnd : slots.Nodup)
    (hl : ∀ t, parse_from_str s.start_timestamp = some t → inWindow t = true →
      (lookupAL lut s.location_id).isSome = true) :
    ((expectedNotifs lut u d slots).filter fun n => n.slot == s).length =
      if slotInWindow s = true then 1 else 0 := by
  induction slots with
  | nil => cases hs
  | cons s1 rest ih =>
    by_cases he : s1 = s
    · subst he
      have hnotin : s1 ∉ rest := (List.nodup_cons.mp hnd).1
      have htail0 : ((expectedNotifs lut u d rest).filter fun n => n.slot == s1) = [] := by
        apply List.filter_eq_nil_iff.mpr
        intro n hn
        have h3 := (mem_expectedNotifs hn).2.2
        simp only [beq_iff_eq]
        intro e
        exact hnotin (e ▸ h3)
      have hiff := slotNotif_isSome (u := u) (d := d) hl
      cases hsn : slotNotif lut u d s1 with
      | none =>
        have hsw : slotInWindow s1 = false := by
          rw [hsn] at hiff
          exact hiff.symm
        simp [expectedNotifs_cons, hsn, htail0, hsw]
      | some n1 =>
        have hsw : slotInWindow s1 = true := by
          rw [hsn] at hiff
          exact hiff.symm
        have hn1 : n1.slot = s1 := (slotNotif_some hsn).2.2
        simp [expectedNotifs_cons, hsn, List.filter_cons, hn1, htail0, hsw]
    · have hsr : s ∈ rest := by
        rcases List.mem_cons.mp hs with e | e
        · exact absurd e.symm he
        · exact e
      have ihr := ih hsr (List.nodup_cons.mp hnd).2
      cases hsn : slotNotif lut u d s1 with
      | none =>
        simp only [expectedNotifs_cons, hsn]
        exact ihr
      | some n1 =>
        have hn1 : n1.slot = s1 := (slotNotif_some hsn).2.2
        have hne2 : (n1.slot == s) = false := by
          simp [hn1]
          exact he
        simp only [expectedNotifs_cons, hsn]
        rw [show ((n1 :: expectedNotifs lut u d rest).filter fun n => n.slot == s) = ((expectedNotifs lut u d rest).filter fun n => n.slot == s) from by simp [List.filter_cons, hne2]]
        exact ihr

/-- C5: when the Worker processes NotifyCenter(center, slots) with a
non-empty slot list, the reverse index assigns center a bucket containing
subscriber u exactly once, u's resync settles on record d, every slot's
timestamp parses and every in-window slot has a known location id, then the
handler succeeds and dispatches, to u's chat destination, exactly one
notification per slot whose parsed date lies inside the eligibility window
and none for a slot outside it. -/
theorem notify_center_in_window (lut : List (CenterId × Center)) (st : TrackState)
    (store : Store) (center : CenterId) (slots : List Slot) (users : List UserId)
    (u : UserId) (d : UserData)
    (hslots : slots ≠ [])
    (hnd : slots.Nodup)
    (hbucket : lookupAL (get_center_subscribers st) center = some users)
    (hu : users.count u = 1)
    (hd : syncedUser store st u = some d)
    (hparse : ∀ s ∈ slots, (parse_from_str s.start_timestamp).isSome = true)
    (hlut : ∀ s ∈ slots, ∀ t, parse_from_str s.start_timestamp = some t →
      inWindow t = true → (lookupAL lut s.location_id).isSome = true) :
    ∃ st2,
      processNotifyUsersOf lut st store center slots =
        .ok (st2, expectedForUsers lut store st users slots) ∧
      (expectedForUsers lut store st users slots).filter (fun n => n.user == u) =
        expectedNotifs lut u d slots ∧
      (∀ n ∈ expectedForUsers lut store st users slots,
        n.user = u → n.chat_id = d.chat_id) ∧
      ∀ s ∈ slots,
        ((expectedForUsers lut store st users slots).filter
          (fun n => n.user == u && n.slot == s)).length =
          if slotInWindow s = true then 1 else 0 := by
  obtain ⟨st2, hrun⟩ := notifyUsers_ok lut store slots hparse hlut users st
  refine ⟨st2, ?_, ?_, ?_, ?_⟩
  · have hpos : slots.length > 0 := List.length_pos.mpr hslots
    simp [processNotifyUsersOf, hpos, hbucket, hrun]
  · exact filter_expectedForUsers lut store st slots u d hd users hu
  · intro n hn hnu
    obtain ⟨w2, hw2, hn2⟩ := List.mem_flatMap.mp hn
    obtain ⟨dw2, hsw2, hnu2, hch2, -⟩ := mem_userNotifs hn2
    have hw2u : w2 = u := by rw [← hnu2, hnu]
    subst hw2u
    rw [hd] at hsw2
    cases hsw2
    exact hch2
  · intro s hs
    rw [filter_and_eq, filter_expectedForUsers lut store st slots u d hd users hu]
    exact expectedNotifs_filter_slot lut u d slots s hs hnd (hlut s hs)

/-- C5 witness: subscriber 42 (chat 555) tracks center 7; a NotifyCenter for
center 7 with one in-window slot and one out-of-window slot dispatches
exactly one notification for the in-window slot and none for the other. -/
theorem notify_center_in_window_witness :
    ((expectedForUsers [(7, ⟨7, "ns", "Nexus Center", "addr"⟩)] ⟨[], .absent⟩ ⟨[(42, ⟨[7], 555⟩)], [42]⟩ [42] [⟨7, "2023-01-15T10:30"⟩, ⟨7, "2023-03-01T10:30"⟩]).filter (fun n => n.user == 42)) =
      expectedNotifs [(7, ⟨7, "ns", "Nexus Center", "addr"⟩)] 42 ⟨[7], 555⟩ [⟨7, "2023-01-15T10:30"⟩, ⟨7, "2023-03-01T10:30"⟩] ∧
    ((expectedForUsers [(7, ⟨7, "ns", "Nexus Center", "addr"⟩)] ⟨[], .absent⟩ ⟨[(42, ⟨[7], 555⟩)], [42]⟩ [42] [⟨7, "2023-01-15T10:30"⟩, ⟨7, "2023-03-01T10:30"⟩]).filter (fun n => n.user == 42 && n.slot == ⟨7, "2023-01-15T10:30"⟩)).length = 1 ∧
    ((expectedForUsers [(7, ⟨7, "ns", "Nexus Center", "addr"⟩)] ⟨[], .absent⟩ ⟨[(42, ⟨[7], 555⟩)], [42]⟩ [42] [⟨7, "2023-01-15T10:30"⟩, ⟨7, "2023-03-01T10:30"⟩]).filter (fun n => n.user == 42 && n.slot == ⟨7, "2023-03-01T10:30"⟩)).length = 0 := by
  obtain ⟨st2, h1, h2, h3, h4⟩ := notify_center_in_window
    [(7, ⟨7, "ns", "Nexus Center", "addr"⟩)] ⟨[(42, ⟨[7], 555⟩)], [42]⟩ ⟨[], .absent⟩
    7 [⟨7, "2023-01-15T10:30"⟩, ⟨7, "2023-03-01T10:30"⟩] [42] 42 ⟨[7], 555⟩
    (by decide) (by decide) (by decide) (by decide) (by decide) (by decide)
    (by
      intro s hs t ht hw
      fin_cases hs <;> decide)
  refine ⟨h2, ?_, ?_⟩
  · have hc := h4 ⟨7, "2023-01-15T10:30"⟩ (by decide)
    rwa [if_pos (by decide)] at hc
  · have hc := h4 ⟨7, "2023-03-01T10:30"⟩ (by decide)
    rwa [if_neg (by decide)] at hc

/-- C8: the code contradicts the no-fatal-errors policy: processing
NotifyCenter(7, [slot]) for a subscribed center panics (aborting the worker
thread) when the slot's start_timestamp does not parse in the expected
format, because of the unwrap at src/center.rs line 142 — instead of
degrading to logging or skipping as the spec requires.  (The CENTER_LUT
index at line 149 and the body-read unwrap at line 116 are further panic
sites of the same kind.) -/
theorem notify_center_panics_on_bad_timestamp :
    processNotifyUsersOf [(7, ⟨7, "ns", "Nexus Center", "addr"⟩)]
      ⟨[(42, ⟨[7], 555⟩)], [42]⟩ ⟨[], .absent⟩ 7 [⟨7, "not-a-date"⟩] =
      .error (.parsePanic "not-a-date") := rfl

/-- Companion fact for C8: the same handler also panics via the CENTER_LUT
index when an in-window slot's location id (9) has no entry in the lookup
table. -/
theorem notify_center_panics_on_unknown_location :
    processNotifyUsersOf [(7, ⟨7, "ns", "Nexus Center", "addr"⟩)]
      ⟨[(42, ⟨[9], 555⟩)], [42]⟩ ⟨[], .absent⟩ 9 [⟨9, "2023-01-15T10:30"⟩] =
      .error (.lutPanic 9) := rfl
